import Mathlib

/-!
Shallow embedding of the token-budgeted conversation core of the
claude-learning-assistant repository: the cost calculator
(`src/utils/cost-calculator.js` with the price table of `config.js`), the
budget tracker (`TokenTracker` in `src/core/TokenTracker.js`) and the
conversation history manager (`ConversationManager` in
`src/core/ConversationManager.js`).  JavaScript numbers are modelled as
rationals; the dynamically-typed values a caller may pass where the code
expects a number or a string are modelled by small sum types (`JsNum`,
`JsVal`) so that the code's runtime validation (and its absence) can be
stated faithfully.  Fallible operations return `Except`, mirroring thrown
exceptions.
-/

/-- A JavaScript value arriving where the cost calculator expects a number:
a finite number (modelled as a rational), `NaN`, or a value that is not a
number at all (`typeof v !== 'number'`). -/
inductive JsNum where
  | num (q : ℚ)
  | nan
  | nonNumeric
deriving DecidableEq, Repr

/-- The JavaScript `s.startsWith(p)` test, computed on the character data
of the two strings. -/
def strStartsWith (s p : String) : Bool := p.data.isPrefixOf s.data

namespace Config

/-- Embeds `Config.DEFAULT_MODEL_NAME` from `config.js`. -/
def DEFAULT_MODEL_NAME : String := "claude-3-5-sonnet-20241022"

/-- Embeds `Config.DEFAULT_MODEL` from `config.js`.  In the source this is
`process.env.DEFAULT_MODEL || DEFAULT_MODEL_NAME`; the embedding takes the
environment with `DEFAULT_MODEL` unset, so it equals `DEFAULT_MODEL_NAME`. -/
def DEFAULT_MODEL : String := DEFAULT_MODEL_NAME

/-- The `glmPrices` object literal inside `Config.getModelPrices`
(price per million tokens, as `(input, output)`). -/
def glmPrices (model : String) : Option (ℚ × ℚ) :=
  if model = "GLM-4.7" then some (1/2, 1/2)
  else if model = "GLM-4" then some (1/10, 1/10)
  else none

/-- The `claudePrices` object literal inside `Config.getModelPrices`
(price per million tokens, as `(input, output)`). -/
def claudePrices (model : String) : Option (ℚ × ℚ) :=
  if model = "claude-3-5-sonnet-20241022" then some (3, 15)
  else if model = "claude-3-opus-20240229" then some (15, 75)
  else if model = "claude-3-haiku-20240307" then some (1/4, 5/4)
  else none

/-- Embeds `Config.getModelPrices` from `config.js`: models whose name
starts with `"GLM"` are looked up in `glmPrices` and fall back to the
`"GLM-4.7"` entry; every other model is looked up in `claudePrices` and
falls back to the `DEFAULT_MODEL_NAME` entry (the JavaScript
`table[model] || table[fallbackKey]` idiom). -/
def getModelPrices (model : String) : ℚ × ℚ :=
  if strStartsWith model "GLM" then
    (glmPrices model).getD ((glmPrices "GLM-4.7").getD (0, 0))
  else
    (claudePrices model).getD ((claudePrices DEFAULT_MODEL_NAME).getD (0, 0))

end Config

/-- The cost-breakdown record returned by `calculateCost` in
`src/utils/cost-calculator.js`. -/
structure Cost where
  inputCost : ℚ
  outputCost : ℚ
  totalCost : ℚ
  inputTokens : ℚ
  outputTokens : ℚ
  totalTokens : ℚ
deriving DecidableEq, Repr

/-- Embeds `calculateCost` from `src/utils/cost-calculator.js`: validates
that each token count is a non-negative number (throwing otherwise, in the
source's order: `inputTokens` first), looks the model up in the price
table, and returns the cost breakdown. -/
def calculateCost (inputTokens outputTokens : JsNum) (model : String) :
    Except String Cost :=
  match inputTokens with
  | .num i =>
    if i < 0 then .error "inputTokens 必须是有效的非负数"
    else
      match outputTokens with
      | .num o =>
        if o < 0 then .error "outputTokens 必须是有效的非负数"
        else
          let p := Config.getModelPrices model
          let inputCost := i / 1000000 * p.1
          let outputCost := o / 1000000 * p.2
          .ok ⟨inputCost, outputCost, inputCost + outputCost, i, o, i + o⟩
      | _ => .error "outputTokens 必须是有效的非负数"
  | _ => .error "inputTokens 必须是有效的非负数"

/-- The running accumulator `this.usage` of `TokenTracker`
(`src/core/TokenTracker.js`). -/
structure Usage where
  inputTokens : ℚ
  outputTokens : ℚ
  totalTokens : ℚ
  cost : ℚ
deriving DecidableEq, Repr

/-- The state of a `TokenTracker` (`src/core/TokenTracker.js`): a fixed
budget and the running usage accumulator. -/
structure TokenTracker where
  budget : ℚ
  usage : Usage
deriving DecidableEq, Repr

namespace TokenTracker

/-- Embeds the `TokenTracker` constructor with a fresh accumulator. -/
def mk0 (budget : ℚ) : TokenTracker := ⟨budget, ⟨0, 0, 0, 0⟩⟩

/-- Embeds `TokenTracker.addUsage`: `calculateCost` is called first; if it
throws, the exception propagates and `this.usage` is untouched (the
returned tracker is the argument itself); on success all four accumulator
fields are incremented and the incremental cost record is returned. -/
def addUsage (t : TokenTracker) (inputTokens outputTokens : JsNum)
    (model : String) : TokenTracker × Except String Cost :=
  match calculateCost inputTokens outputTokens model with
  | .error e => (t, .error e)
  | .ok c =>
    (⟨t.budget,
      ⟨t.usage.inputTokens + c.inputTokens,
       t.usage.outputTokens + c.outputTokens,
       t.usage.totalTokens + c.totalTokens,
       t.usage.cost + c.totalCost⟩⟩, .ok c)

/-- Embeds `TokenTracker.getCurrentCost`. -/
def getCurrentCost (t : TokenTracker) : ℚ := t.usage.cost

/-- The record returned by `TokenTracker.checkBudget`. -/
structure BudgetStatus where
  currentCost : ℚ
  usage : Usage
  remaining : ℚ
  isNearLimit : Bool
  isExceeded : Bool
  shouldWarn : Bool
deriving DecidableEq, Repr

/-- Embeds `TokenTracker.checkBudget`: three independent booleans derived
from `usagePercentage = currentCost / budget * 100`. -/
def checkBudget (t : TokenTracker) : BudgetStatus :=
  let currentCost := getCurrentCost t
  let remaining := t.budget - currentCost
  let usagePercentage := currentCost / t.budget * 100
  ⟨currentCost, t.usage, remaining,
   decide (80 ≤ usagePercentage),
   decide (100 ≤ usagePercentage),
   decide (70 ≤ usagePercentage)⟩

/-- The record returned by `TokenTracker.getReport`. -/
structure Report where
  budget : ℚ
  currentCost : ℚ
  remaining : ℚ
  usage : Usage
  percentage : ℚ
  status : String
deriving DecidableEq, Repr

/-- Embeds `TokenTracker.getReport`: the status label is chosen by the
source's if/else-if chain, from highest threshold to lowest. -/
def getReport (t : TokenTracker) : Report :=
  let currentCost := getCurrentCost t
  let remaining := t.budget - currentCost
  let percentage := currentCost / t.budget * 100
  let status : String :=
    if 100 ≤ percentage then "超出预算"
    else if 80 ≤ percentage then "接近限制"
    else if 70 ≤ percentage then "需要关注"
    else "正常"
  ⟨t.budget, currentCost, remaining, t.usage, percentage, status⟩

/-- Embeds `TokenTracker.reset`: zeroes the accumulator, keeps the budget. -/
def reset (t : TokenTracker) : TokenTracker := ⟨t.budget, ⟨0, 0, 0, 0⟩⟩

/-- Runs a sequence of `addUsage` calls, collecting each call's incremental
cost record; `none` when any call in the sequence throws (a harness for
stating properties of sequences of successful calls). -/
def runUsages (t : TokenTracker) :
    List (JsNum × JsNum × String) → Option (TokenTracker × List Cost)
  | [] => some (t, [])
  | (i, o, m) :: rest =>
    match addUsage t i o m with
    | (_, .error _) => none
    | (t', .ok c) =>
      match runUsages t' rest with
      | some (tf, cs) => some (tf, c :: cs)
      | none => none

end TokenTracker

/-- A stored message of `ConversationManager` (`src/core/ConversationManager.js`):
role, content and the `Date.now()` timestamp recorded at append time. -/
structure Message where
  role : String
  content : String
  timestamp : ℕ
deriving DecidableEq, Repr

/-- A formatted entry as returned by `ConversationManager.getMessages`:
role and content only, no timestamp. -/
structure ApiMessage where
  role : String
  content : String
deriving DecidableEq, Repr

/-- The state of a `ConversationManager`: the ordered message list, the
system prompt (the empty string when none was given) and the
`maxHistoryTokens` bound. -/
structure Conv where
  messages : List Message
  systemPrompt : String
  maxHistoryTokens : ℕ
deriving DecidableEq, Repr

namespace Conv

/-- Embeds the default `DEFAULT_MAX_HISTORY_TOKENS` of
`src/core/ConversationManager.js`. -/
def DEFAULT_MAX_HISTORY_TOKENS : ℕ := 100000

/-- Embeds the `ConversationManager` constructor.  The source reads
`options.systemPrompt || ''` and `options.maxHistoryTokens || DEFAULT`,
so an absent or empty system prompt becomes the empty string and an
absent or zero (falsy) token bound becomes the default. -/
def mkConv (systemPrompt : Option String) (maxHistoryTokens : Option ℕ) : Conv :=
  ⟨[],
   systemPrompt.getD "",
   match maxHistoryTokens with
   | some n => if n = 0 then DEFAULT_MAX_HISTORY_TOKENS else n
   | none => DEFAULT_MAX_HISTORY_TOKENS⟩

/-- Embeds `ConversationManager._estimateTokens`:
`Math.ceil(text.length / 3)`. -/
def estimateTokens (text : String) : ℕ := (text.length + 2) / 3

/-- Embeds `ConversationManager._calculateTotalTokens`: the system prompt
contributes only when it is truthy (a non-empty string), then every stored
message's content is estimated and summed. -/
def calcTotalTokens (systemPrompt : String) (msgs : List Message) : ℕ :=
  (if systemPrompt = "" then 0 else estimateTokens systemPrompt) +
    (msgs.map (fun m => estimateTokens m.content)).sum

/-- Embeds the `while` loop of `ConversationManager._trimHistoryIfNeeded`:
while the token estimate exceeds the bound and at least two messages
remain, `splice(0, 2)` removes the two oldest messages.  (The method's
early `return` when the estimate is already within the bound coincides
with the loop condition being false on entry.) -/
def trimLoop (systemPrompt : String) (maxTokens : ℕ) :
    List Message → List Message
  | [] => []
  | [m] => [m]
  | m1 :: m2 :: rest =>
    if maxTokens < calcTotalTokens systemPrompt (m1 :: m2 :: rest) then
      trimLoop systemPrompt maxTokens rest
    else m1 :: m2 :: rest

/-- Embeds `ConversationManager.addUserMessage`: pushes a user-role message
with the current timestamp, then runs the trimming step. -/
def addUserMessage (st : Conv) (content : String) (now : ℕ) : Conv :=
  ⟨trimLoop st.systemPrompt st.maxHistoryTokens
      (st.messages ++ [⟨"user", content, now⟩]),
   st.systemPrompt, st.maxHistoryTokens⟩

/-- Embeds `ConversationManager.addAssistantMessage`: pushes an
assistant-role message with the current timestamp, then runs the trimming
step. -/
def addAssistantMessage (st : Conv) (content : String) (now : ℕ) : Conv :=
  ⟨trimLoop st.systemPrompt st.maxHistoryTokens
      (st.messages ++ [⟨"assistant", content, now⟩]),
   st.systemPrompt, st.maxHistoryTokens⟩

/-- Embeds `ConversationManager.setSystemPrompt`: replaces the system
prompt; the message list and the bound are untouched and no trimming runs. -/
def setSystemPrompt (st : Conv) (prompt : String) : Conv :=
  ⟨st.messages, prompt, st.maxHistoryTokens⟩

/-- Embeds `ConversationManager.getMessages`: the system prompt is
prepended as a system-role entry only when it is truthy (non-empty), then
every stored message follows, stripped of its timestamp. -/
def getMessages (st : Conv) : List ApiMessage :=
  (if st.systemPrompt = "" then []
   else [⟨"system", st.systemPrompt⟩]) ++
    st.messages.map (fun m => ⟨m.role, m.content⟩)

/-- Embeds `ConversationManager.getTurnCount`: `floor(length / 2)`. -/
def getTurnCount (st : Conv) : ℕ := st.messages.length / 2

/-- Embeds `ConversationManager.clear`: empties the message list only. -/
def clear (st : Conv) : Conv := ⟨[], st.systemPrompt, st.maxHistoryTokens⟩

/-- Embeds `ConversationManager.exportToText`.  The source renders each
timestamp with `new Date(ts).toLocaleString('zh-CN')`, an
environment-dependent call, so the renderer is taken as a parameter
`fmtTime`. -/
def exportToText (fmtTime : ℕ → String) (st : Conv) : String :=
  if st.messages = [] ∧ st.systemPrompt = "" then "(空对话)"
  else
    let promptLines : List String :=
      if st.systemPrompt = "" then []
      else ["=== 系统提示词 ===", st.systemPrompt, ""]
    let historyLines : List String :=
      if st.messages = [] then []
      else "=== 对话历史 ===" ::
        st.messages.flatMap (fun m =>
          ["[" ++ fmtTime m.timestamp ++ "] " ++
             (if m.role = "user" then "用户" else "助手") ++ ":",
           m.content, ""])
    String.intercalate "\n" (promptLines ++ historyLines)

/-- Runs a list of complete user/assistant turns against a conversation
state: for each pair the user content is appended, then the assistant
content (a harness for stating properties of alternating call sequences;
timestamps are irrelevant to trimming and taken as `0`). -/
def runPairs (st : Conv) : List (String × String) → Conv
  | [] => st
  | (u, a) :: rest =>
    runPairs (addAssistantMessage (addUserMessage st u 0) a 0) rest

end Conv

/-!
Dynamically-typed model of the history mutators.  `addUserMessage` and
`addAssistantMessage` take arbitrary JavaScript values in the source; to
state what happens when a caller passes a non-string the content slot is
modelled by a small sum of representative JavaScript values and token
estimation follows JavaScript's coercion rules: `v.length` is the string
length for a string, `undefined` for a number (so the estimate and every
total containing it become `NaN`, and `NaN > maxHistoryTokens` is false),
and a thrown `TypeError` for `null`.
-/

/-- A JavaScript value arriving where the history mutators expect a string:
a string, a number, or `null`. -/
inductive JsVal where
  | str (s : String)
  | num (q : ℚ)
  | nul
deriving DecidableEq, Repr

/-- The error kinds relevant to the history mutators: the runtime
`TypeError` (reading `.length` of `null`) and the `InvalidArgument`
validation error of the specification's taxonomy. -/
inductive JsError where
  | typeError
  | invalidArgument
deriving DecidableEq, Repr

/-- A JavaScript arithmetic result that may be `NaN`. -/
inductive JsTok where
  | val (n : ℕ)
  | nan
deriving DecidableEq, Repr

/-- Addition with `NaN` contagion (`total += estimate`). -/
def JsTok.add : JsTok → JsTok → JsTok
  | .val a, .val b => .val (a + b)
  | _, _ => .nan

/-- The comparison `total > maxTokens`: false whenever the total is `NaN`. -/
def JsTok.gtNat (t : JsTok) (m : ℕ) : Bool :=
  match t with
  | .val n => m < n
  | .nan => false

/-- A stored message whose content is an arbitrary JavaScript value. -/
structure JsMessage where
  role : String
  content : JsVal
  timestamp : ℕ
deriving DecidableEq, Repr

/-- The state of a `ConversationManager` holding dynamically-typed content. -/
structure JsConv where
  messages : List JsMessage
  systemPrompt : String
  maxHistoryTokens : ℕ
deriving DecidableEq, Repr

namespace JsConv

/-- Embeds `_estimateTokens(content)` on a dynamically-typed content value:
`Math.ceil(content.length / 3)` is a number for a string, `NaN` for a
number (whose `.length` is `undefined`), and throws a `TypeError` for
`null`. -/
def estimateTokensJs : JsVal → Except JsError JsTok
  | .str s => .ok (.val ((s.length + 2) / 3))
  | .num _ => .ok .nan
  | .nul => .error .typeError

/-- The summation loop of `_calculateTotalTokens` on dynamically-typed
messages: each message's content estimate is added into the accumulator
in order; a thrown `TypeError` propagates from the first `null` content. -/
def calcTotalAux (acc : JsTok) : List JsMessage → Except JsError JsTok
  | [] => .ok acc
  | m :: rest =>
    match estimateTokensJs m.content with
    | .error e => .error e
    | .ok t => calcTotalAux (acc.add t) rest

/-- Embeds `_calculateTotalTokens` on dynamically-typed messages: the
system prompt (a real string) contributes when non-empty, then every
message's content estimate is summed via `calcTotalAux`. -/
def calcTotalTokensJs (systemPrompt : String) (msgs : List JsMessage) :
    Except JsError JsTok :=
  calcTotalAux
    (.val (if systemPrompt = "" then 0 else (systemPrompt.length + 2) / 3))
    msgs

/-- Embeds the loop of `_trimHistoryIfNeeded` on dynamically-typed
messages: each iteration recomputes the total (which may throw), the
comparison against the bound is false on `NaN`, and a pair is only
removed when at least two messages remain. -/
def trimLoopJs (systemPrompt : String) (maxTokens : ℕ) :
    List JsMessage → Except JsError (List JsMessage)
  | [] =>
    (calcTotalTokensJs systemPrompt []).map (fun _ => [])
  | [m] =>
    (calcTotalTokensJs systemPrompt [m]).map (fun _ => [m])
  | m1 :: m2 :: rest => do
    let t ← calcTotalTokensJs systemPrompt (m1 :: m2 :: rest)
    if t.gtNat maxTokens then trimLoopJs systemPrompt maxTokens rest
    else pure (m1 :: m2 :: rest)

/-- Embeds `addUserMessage` on a dynamically-typed content value: the
value is pushed with no validation, then the trimming step runs (and may
throw a `TypeError` while estimating tokens). -/
def addUserMessageJs (st : JsConv) (content : JsVal) (now : ℕ) :
    Except JsError JsConv :=
  (trimLoopJs st.systemPrompt st.maxHistoryTokens
      (st.messages ++ [⟨"user", content, now⟩])).map
    (fun ms => ⟨ms, st.systemPrompt, st.maxHistoryTokens⟩)

/-- Embeds `addAssistantMessage` on a dynamically-typed content value. -/
def addAssistantMessageJs (st : JsConv) (content : JsVal) (now : ℕ) :
    Except JsError JsConv :=
  (trimLoopJs st.systemPrompt st.maxHistoryTokens
      (st.messages ++ [⟨"assistant", content, now⟩])).map
    (fun ms => ⟨ms, st.systemPrompt, st.maxHistoryTokens⟩)

end JsConv

/-! ## Helper lemmas for the cost model and the budget tracker -/

theorem getModelPrices_nonneg (m : String) :
    0 ≤ (Config.getModelPrices m).1 ∧ 0 ≤ (Config.getModelPrices m).2 := by
  unfold Config.getModelPrices Config.glmPrices Config.claudePrices
    Config.DEFAULT_MODEL_NAME
  repeat' split
  all_goals norm_num

theorem calculateCost_num_eq (i o : ℚ) (m : String) (hi : 0 ≤ i) (ho : 0 ≤ o) :
    calculateCost (.num i) (.num o) m =
      .ok ⟨i / 1000000 * (Config.getModelPrices m).1,
           o / 1000000 * (Config.getModelPrices m).2,
           i / 1000000 * (Config.getModelPrices m).1 +
             o / 1000000 * (Config.getModelPrices m).2,
           i, o, i + o⟩ := by
  simp only [calculateCost]
  rw [if_neg (not_lt.mpr hi), if_neg (not_lt.mpr ho)]

theorem calculateCost_ok_nonneg {i o : JsNum} {m : String} {c : Cost}
    (h : calculateCost i o m = .ok c) :
    0 ≤ c.inputCost ∧ 0 ≤ c.outputCost ∧ 0 ≤ c.totalCost ∧
      0 ≤ c.inputTokens ∧ 0 ≤ c.outputTokens ∧ 0 ≤ c.totalTokens := by
  cases i with
  | num qi =>
    cases o with
    | num qo =>
      by_cases hqi : qi < 0
      · simp [calculateCost, hqi] at h
      · by_cases hqo : qo < 0
        · simp [calculateCost, hqi, hqo] at h
        · push_neg at hqi hqo
          rw [calculateCost_num_eq qi qo m hqi hqo] at h
          obtain ⟨hp1, hp2⟩ := getModelPrices_nonneg m
          cases h
          have h1 : 0 ≤ qi / 1000000 * (Config.getModelPrices m).1 :=
            mul_nonneg (div_nonneg hqi (by norm_num)) hp1
          have h2 : 0 ≤ qo / 1000000 * (Config.getModelPrices m).2 :=
            mul_nonneg (div_nonneg hqo (by norm_num)) hp2
          exact ⟨h1, h2, add_nonneg h1 h2, hqi, hqo, add_nonneg hqi hqo⟩
    | nan => simp only [calculateCost] at h; split at h <;> simp at h
    | nonNumeric => simp only [calculateCost] at h; split at h <;> simp at h
  | nan => exact absurd h (by simp [calculateCost])
  | nonNumeric => exact absurd h (by simp [calculateCost])

theorem calculateCost_error_of_invalid {i o : JsNum} (m : String)
    (h : i = .nan ∨ i = .nonNumeric ∨ (∃ q, i = .num q ∧ q < 0) ∨
         o = .nan ∨ o = .nonNumeric ∨ (∃ q, o = .num q ∧ q < 0)) :
    ∃ e, calculateCost i o m = .error e := by
  cases i with
  | nan => exact ⟨"inputTokens 必须是有效的非负数", rfl⟩
  | nonNumeric => exact ⟨"inputTokens 必须是有效的非负数", rfl⟩
  | num qi =>
    by_cases hqi : qi < 0
    · exact ⟨"inputTokens 必须是有效的非负数", by simp [calculateCost, hqi]⟩
    · have ho : o = .nan ∨ o = .nonNumeric ∨ ∃ q, o = .num q ∧ q < 0 := by
        rcases h with h | h | ⟨q, hq, hq'⟩ | h | h | hq
        · exact absurd h (by simp)
        · exact absurd h (by simp)
        · rw [JsNum.num.injEq] at hq; exact absurd (hq ▸ hq') hqi
        · exact .inl h
        · exact .inr (.inl h)
        · exact .inr (.inr hq)
      rcases ho with rfl | rfl | ⟨q, rfl, hq⟩
      · exact ⟨"outputTokens 必须是有效的非负数", by simp [calculateCost, hqi]⟩
      · exact ⟨"outputTokens 必须是有效的非负数", by simp [calculateCost, hqi]⟩
      · exact ⟨"outputTokens 必须是有效的非负数", by simp [calculateCost, hqi, hq]⟩

theorem calculateCost_congr_prices {m1 m2 : String}
    (h : Config.getModelPrices m1 = Config.getModelPrices m2)
    (i o : JsNum) : calculateCost i o m1 = calculateCost i o m2 := by
  cases i <;> cases o <;> simp [calculateCost, h]

theorem addUsage_ok_iff {t t' : TokenTracker} {i o : JsNum} {m : String}
    {c : Cost} :
    TokenTracker.addUsage t i o m = (t', .ok c) ↔
      calculateCost i o m = .ok c ∧
      t' = ⟨t.budget,
        ⟨t.usage.inputTokens + c.inputTokens,
         t.usage.outputTokens + c.outputTokens,
         t.usage.totalTokens + c.totalTokens,
         t.usage.cost + c.totalCost⟩⟩ := by
  unfold TokenTracker.addUsage
  cases h : calculateCost i o m with
  | error e => simp [h]
  | ok c0 =>
    simp only [Prod.mk.injEq, Except.ok.injEq]
    constructor
    · rintro ⟨rfl, rfl⟩; exact ⟨rfl, rfl⟩
    · rintro ⟨hc, rfl⟩; cases hc; exact ⟨rfl, rfl⟩

theorem runUsages_cost_sum {calls : List (JsNum × JsNum × String)} :
    ∀ {t tf : TokenTracker} {cs : List Cost},
      TokenTracker.runUsages t calls = some (tf, cs) →
      tf.usage.cost = t.usage.cost + (cs.map Cost.totalCost).sum := by
  induction calls with
  | nil =>
    intro t tf cs h
    simp only [TokenTracker.runUsages, Option.some.injEq, Prod.mk.injEq] at h
    obtain ⟨rfl, rfl⟩ := h
    simp
  | cons call rest ih =>
    intro t tf cs h
    obtain ⟨i, o, m⟩ := call
    simp only [TokenTracker.runUsages] at h
    split at h
    · simp at h
    · rename_i t1 c hadd
      split at h
      · rename_i tf1 cs1 hrun
        simp only [Option.some.injEq, Prod.mk.injEq] at h
        obtain ⟨rfl, rfl⟩ := h
        have ht1 := (addUsage_ok_iff.mp hadd).2
        have hc := ih hrun
        subst ht1
        simp only [List.map_cons, List.sum_cons]
        simp at hc
        rw [hc]
        ring
      · simp at h

theorem runUsages_usage_mono {calls : List (JsNum × JsNum × String)} :
    ∀ {t tf : TokenTracker} {cs : List Cost},
      TokenTracker.runUsages t calls = some (tf, cs) →
      t.usage.inputTokens ≤ tf.usage.inputTokens ∧
      t.usage.outputTokens ≤ tf.usage.outputTokens ∧
      t.usage.totalTokens ≤ tf.usage.totalTokens ∧
      t.usage.cost ≤ tf.usage.cost := by
  induction calls with
  | nil =>
    intro t tf cs h
    simp only [TokenTracker.runUsages, Option.some.injEq, Prod.mk.injEq] at h
    obtain ⟨rfl, rfl⟩ := h
    exact ⟨le_refl _, le_refl _, le_refl _, le_refl _⟩
  | cons call rest ih =>
    intro t tf cs h
    obtain ⟨i, o, m⟩ := call
    simp only [TokenTracker.runUsages] at h
    split at h
    · simp at h
    · rename_i t1 c hadd
      split at h
      · rename_i tf1 cs1 hrun
        simp only [Option.some.injEq, Prod.mk.injEq] at h
        obtain ⟨rfl, rfl⟩ := h
        obtain ⟨hc, ht1⟩ := addUsage_ok_iff.mp hadd
        obtain ⟨h1, h2, h3, h4, h5, h6⟩ := calculateCost_ok_nonneg hc
        obtain ⟨g1, g2, g3, g4⟩ := ih hrun
        subst ht1
        simp only at g1 g2 g3 g4
        exact ⟨le_trans (by linarith) g1, le_trans (by linarith) g2,
          le_trans (by linarith) g3, le_trans (by linarith) g4⟩
      · simp at h

/-! ## Claim theorems: cost model and budget tracker -/

/-- C2: `checkBudget` returns three independent booleans from
`usagePercentage = currentCost / budget * 100` — `shouldWarn` iff the
percentage is at least 70, `isNearLimit` iff at least 80, `isExceeded`
iff at least 100; with budget 1 and cost exactly 0.70 the triple is
(true, false, false), at 0.80 `isNearLimit` holds, at 1.00 `isExceeded`
holds; `remaining` is `budget - currentCost` and can be negative. -/
theorem claim2_checkBudget_thresholds :
    (∀ t : TokenTracker,
      ((TokenTracker.checkBudget t).shouldWarn = true ↔
        70 ≤ t.usage.cost / t.budget * 100) ∧
      ((TokenTracker.checkBudget t).isNearLimit = true ↔
        80 ≤ t.usage.cost / t.budget * 100) ∧
      ((TokenTracker.checkBudget t).isExceeded = true ↔
        100 ≤ t.usage.cost / t.budget * 100) ∧
      (TokenTracker.checkBudget t).remaining = t.budget - t.usage.cost) ∧
    ((TokenTracker.checkBudget ⟨1, ⟨0, 0, 0, 7/10⟩⟩).shouldWarn = true ∧
     (TokenTracker.checkBudget ⟨1, ⟨0, 0, 0, 7/10⟩⟩).isNearLimit = false ∧
     (TokenTracker.checkBudget ⟨1, ⟨0, 0, 0, 7/10⟩⟩).isExceeded = false) ∧
    (TokenTracker.checkBudget ⟨1, ⟨0, 0, 0, 8/10⟩⟩).isNearLimit = true ∧
    (TokenTracker.checkBudget ⟨1, ⟨0, 0, 0, 1⟩⟩).isExceeded = true ∧
    (TokenTracker.checkBudget ⟨1, ⟨0, 0, 0, 2⟩⟩).remaining < 0 := by
  refine ⟨fun t => ⟨?_, ?_, ?_, rfl⟩, ⟨?_, ?_, ?_⟩, ?_, ?_, ?_⟩ <;>
    simp only [TokenTracker.checkBudget, TokenTracker.getCurrentCost,
      decide_eq_true_eq, decide_eq_false_iff_not] <;> norm_num

/-- C4: for non-negative token counts the cost record satisfies
`totalTokens = i + o`, `inputCost = i / 1000000 * inputPrice`,
`outputCost = o / 1000000 * outputPrice` and
`totalCost = inputCost + outputCost`; zero tokens give zero total cost
for every model. -/
theorem claim4_calculateCost_breakdown :
    (∀ (i o : ℚ) (m : String), 0 ≤ i → 0 ≤ o →
      calculateCost (.num i) (.num o) m =
        .ok ⟨i / 1000000 * (Config.getModelPrices m).1,
             o / 1000000 * (Config.getModelPrices m).2,
             i / 1000000 * (Config.getModelPrices m).1 +
               o / 1000000 * (Config.getModelPrices m).2,
             i, o, i + o⟩) ∧
    (∀ m : String,
      (calculateCost (.num 0) (.num 0) m).toOption.map Cost.totalCost =
        some 0) := by
  refine ⟨fun i o m hi ho => calculateCost_num_eq i o m hi ho, fun m => ?_⟩
  rw [calculateCost_num_eq 0 0 m le_rfl le_rfl]
  simp [Except.toOption]

/-- C4 witness: the breakdown at the concrete input (3, 5) for the opus
model. -/
theorem claim4_witness :
    0 ≤ (3 : ℚ) ∧ 0 ≤ (5 : ℚ) ∧
    calculateCost (.num 3) (.num 5) "claude-3-opus-20240229" =
      .ok ⟨3 / 1000000 * (Config.getModelPrices "claude-3-opus-20240229").1,
           5 / 1000000 * (Config.getModelPrices "claude-3-opus-20240229").2,
           3 / 1000000 * (Config.getModelPrices "claude-3-opus-20240229").1 +
             5 / 1000000 * (Config.getModelPrices "claude-3-opus-20240229").2,
           3, 5, 3 + 5⟩ :=
  ⟨by norm_num, by norm_num,
   claim4_calculateCost_breakdown.1 3 5 "claude-3-opus-20240229"
     (by norm_num) (by norm_num)⟩

/-- C3 amended: for a model identifier absent from both price tables,
`calculateCost` falls back to the `"GLM-4.7"` entry when the identifier
starts with `"GLM"`, and to the default model's entry otherwise; unknown
models never raise an error (for valid token counts the call succeeds). -/
theorem claim3_amended_unknown_model_fallback (m : String)
    (hg : Config.glmPrices m = none) (hc : Config.claudePrices m = none) :
    (∀ i o : JsNum,
      calculateCost i o m =
        if strStartsWith m "GLM" then calculateCost i o "GLM-4.7"
        else calculateCost i o Config.DEFAULT_MODEL) ∧
    (∀ q r : ℚ, 0 ≤ q → 0 ≤ r →
      ∃ c, calculateCost (.num q) (.num r) m = .ok c) := by
  have hglm47 : Config.getModelPrices "GLM-4.7" = (1/2, 1/2) := by
    have hs : strStartsWith "GLM-4.7" "GLM" = true := by decide
    simp [Config.getModelPrices, Config.glmPrices, hs]
  have hdef : Config.getModelPrices Config.DEFAULT_MODEL = (3, 15) := by
    have hs : strStartsWith "claude-3-5-sonnet-20241022" "GLM" = false := by
      decide
    simp [Config.getModelPrices, Config.claudePrices, Config.DEFAULT_MODEL,
      Config.DEFAULT_MODEL_NAME, hs]
  constructor
  · intro i o
    by_cases hs : strStartsWith m "GLM"
    · rw [if_pos hs]
      refine calculateCost_congr_prices ?_ i o
      rw [hglm47]
      simp only [Config.getModelPrices, hs, if_true, hg, Option.getD_none]
      simp [Config.glmPrices]
    · rw [if_neg hs]
      refine calculateCost_congr_prices ?_ i o
      rw [hdef]
      simp only [Config.getModelPrices, Bool.not_eq_true] at hs ⊢
      rw [if_neg (by simp [hs]), hc]
      simp [Config.claudePrices, Config.DEFAULT_MODEL_NAME]
  · intro q r hq hr
    exact ⟨_, calculateCost_num_eq q r m hq hr⟩

/-- C3 witness: the fallback behaviour at the concrete unknown identifier
`"other-model"`. -/
theorem claim3_witness :
    Config.glmPrices "other-model" = none ∧
    Config.claudePrices "other-model" = none ∧
    calculateCost (.num 7) (.num 9) "other-model" =
      calculateCost (.num 7) (.num 9) Config.DEFAULT_MODEL := by
  refine ⟨by decide, by decide, ?_⟩
  have h := (claim3_amended_unknown_model_fallback "other-model"
    (by decide) (by decide)).1 (.num 7) (.num 9)
  rw [h]
  have hs : strStartsWith "other-model" "GLM" = false := by decide
  rw [hs]
  simp

/-- C3 counterexample: `"GLM-5"` is in neither price table, yet its cost
differs from the default model's cost — it falls back to the GLM-4.7
prices (0.5 per million input tokens) instead of the default claude model
prices (3 per million input tokens). -/
theorem claim3_counterexample_glm_unknown :
    Config.glmPrices "GLM-5" = none ∧ Config.claudePrices "GLM-5" = none ∧
    (calculateCost (.num 1000000) (.num 0) "GLM-5").toOption.map
        Cost.inputCost = some (1/2) ∧
    (calculateCost (.num 1000000) (.num 0) Config.DEFAULT_MODEL).toOption.map
        Cost.inputCost = some 3 ∧
    calculateCost (.num 1000000) (.num 0) "GLM-5" ≠
      calculateCost (.num 1000000) (.num 0) Config.DEFAULT_MODEL := by
  have h1 : (calculateCost (.num 1000000) (.num 0) "GLM-5").toOption.map
      Cost.inputCost = some (1/2) := by
    rw [calculateCost_num_eq 1000000 0 _ (by norm_num) (by norm_num)]
    have hs : strStartsWith "GLM-5" "GLM" = true := by decide
    simp [Except.toOption, Config.getModelPrices, Config.glmPrices, hs]
  have h2 : (calculateCost (.num 1000000) (.num 0)
      Config.DEFAULT_MODEL).toOption.map Cost.inputCost = some 3 := by
    rw [calculateCost_num_eq 1000000 0 _ (by norm_num) (by norm_num)]
    have hs : strStartsWith "claude-3-5-sonnet-20241022" "GLM" = false := by
      decide
    simp [Except.toOption, Config.getModelPrices, Config.claudePrices,
      Config.DEFAULT_MODEL, Config.DEFAULT_MODEL_NAME, hs]
  refine ⟨by decide, by decide, h1, h2, fun hEq => ?_⟩
  rw [hEq, h2] at h1
  simp at h1
  norm_num at h1

/-- C5: across any sequence of successful `addUsage` calls starting from a
zero accumulator (construction or `reset`), `getCurrentCost` equals the
sum of the `totalCost` fields of the incremental records returned; each
`addUsage` returns the incremental record of its own call (the value of
`calculateCost`), not the running total; and the four accumulator fields
only grow, per call and across a run. -/
theorem claim5_usage_accumulation :
    (∀ (t0 tf : TokenTracker) (calls : List (JsNum × JsNum × String))
        (cs : List Cost),
      t0.usage = ⟨0, 0, 0, 0⟩ →
      TokenTracker.runUsages t0 calls = some (tf, cs) →
      TokenTracker.getCurrentCost tf = (cs.map Cost.totalCost).sum) ∧
    (∀ (t t' : TokenTracker) (i o : JsNum) (m : String) (c : Cost),
      TokenTracker.addUsage t i o m = (t', .ok c) →
      calculateCost i o m = .ok c ∧
      t'.usage.inputTokens = t.usage.inputTokens + c.inputTokens ∧
      t'.usage.outputTokens = t.usage.outputTokens + c.outputTokens ∧
      t'.usage.totalTokens = t.usage.totalTokens + c.totalTokens ∧
      t'.usage.cost = t.usage.cost + c.totalCost ∧
      t.usage.inputTokens ≤ t'.usage.inputTokens ∧
      t.usage.outputTokens ≤ t'.usage.outputTokens ∧
      t.usage.totalTokens ≤ t'.usage.totalTokens ∧
      t.usage.cost ≤ t'.usage.cost) ∧
    (∀ (t0 tf : TokenTracker) (calls : List (JsNum × JsNum × String))
        (cs : List Cost),
      TokenTracker.runUsages t0 calls = some (tf, cs) →
      t0.usage.inputTokens ≤ tf.usage.inputTokens ∧
      t0.usage.outputTokens ≤ tf.usage.outputTokens ∧
      t0.usage.totalTokens ≤ tf.usage.totalTokens ∧
      t0.usage.cost ≤ tf.usage.cost) := by
  refine ⟨?_, ?_, ?_⟩
  · intro t0 tf calls cs h0 h
    have hsum := runUsages_cost_sum h
    rw [h0] at hsum
    simpa [TokenTracker.getCurrentCost] using hsum
  · intro t t' i o m c h
    obtain ⟨hc, ht'⟩ := addUsage_ok_iff.mp h
    obtain ⟨h1, h2, h3, h4, h5, h6⟩ := calculateCost_ok_nonneg hc
    subst ht'
    refine ⟨hc, rfl, rfl, rfl, rfl, ?_, ?_, ?_, ?_⟩ <;> simp <;> linarith
  · intro t0 tf calls cs h
    exact runUsages_usage_mono h

/-- C9: calling `addUsage` with an invalid token count (negative, `NaN`,
or not a number) raises an error and leaves the accumulator exactly as it
was: the error comes from `calculateCost`, which runs before any
accumulator field is mutated. -/
theorem claim9_addUsage_atomic_on_invalid (t : TokenTracker)
    (i o : JsNum) (m : String)
    (h : i = .nan ∨ i = .nonNumeric ∨ (∃ q, i = .num q ∧ q < 0) ∨
         o = .nan ∨ o = .nonNumeric ∨ (∃ q, o = .num q ∧ q < 0)) :
    (TokenTracker.addUsage t i o m).1 = t ∧
    ∃ e, (TokenTracker.addUsage t i o m).2 = .error e := by
  obtain ⟨e, he⟩ := calculateCost_error_of_invalid m h
  refine ⟨?_, e, ?_⟩ <;> simp [TokenTracker.addUsage, he]

/-- C9 witness: a negative input token count at a concrete tracker state
leaves the state unchanged and yields an error. -/
theorem claim9_witness :
    (JsNum.num (-1) = JsNum.nan ∨ JsNum.num (-1) = JsNum.nonNumeric ∨
      (∃ q, JsNum.num (-1) = JsNum.num q ∧ q < 0) ∨
      JsNum.num 0 = JsNum.nan ∨ JsNum.num 0 = JsNum.nonNumeric ∨
      (∃ q, JsNum.num 0 = JsNum.num q ∧ q < 0)) ∧
    ((TokenTracker.addUsage ⟨1, ⟨2, 3, 5, 7⟩⟩ (.num (-1)) (.num 0)
        "claude-3-5-sonnet-20241022").1 = ⟨1, ⟨2, 3, 5, 7⟩⟩ ∧
     ∃ e, (TokenTracker.addUsage ⟨1, ⟨2, 3, 5, 7⟩⟩ (.num (-1)) (.num 0)
        "claude-3-5-sonnet-20241022").2 = .error e) :=
  ⟨Or.inr (Or.inr (Or.inl ⟨-1, rfl, by norm_num⟩)),
   claim9_addUsage_atomic_on_invalid ⟨1, ⟨2, 3, 5, 7⟩⟩ (.num (-1)) (.num 0)
     "claude-3-5-sonnet-20241022"
     (Or.inr (Or.inr (Or.inl ⟨-1, rfl, by norm_num⟩)))⟩

/-- C7 amended: `getReport().status` is the single label picked by the
percentage with precedence from highest threshold to lowest, but the
labels are the source's Chinese strings — `"超出预算"` (exceeded) at 100
or more, `"接近限制"` (near limit) at 80 or more, `"需要关注"` (attention)
at 70 or more, `"正常"` (normal) below 70 — and immediately after
`reset()` the status is `"正常"`. -/
theorem claim7_amended_report_status (t : TokenTracker)
    (_hb : 0 < t.budget) :
    ((100 ≤ t.usage.cost / t.budget * 100 →
        (TokenTracker.getReport t).status = "超出预算") ∧
     (80 ≤ t.usage.cost / t.budget * 100 →
        t.usage.cost / t.budget * 100 < 100 →
        (TokenTracker.getReport t).status = "接近限制") ∧
     (70 ≤ t.usage.cost / t.budget * 100 →
        t.usage.cost / t.budget * 100 < 80 →
        (TokenTracker.getReport t).status = "需要关注") ∧
     (t.usage.cost / t.budget * 100 < 70 →
        (TokenTracker.getReport t).status = "正常")) ∧
    (TokenTracker.getReport (TokenTracker.reset t)).status = "正常" := by
  constructor
  · refine ⟨fun h1 => ?_, fun h1 h2 => ?_, fun h1 h2 => ?_, fun h1 => ?_⟩ <;>
      simp only [TokenTracker.getReport, TokenTracker.getCurrentCost]
    · rw [if_pos h1]
    · rw [if_neg (not_le.mpr h2), if_pos h1]
    · rw [if_neg (not_le.mpr (h2.trans_le (by norm_num))),
        if_neg (not_le.mpr h2), if_pos h1]
    · rw [if_neg (not_le.mpr (h1.trans_le (by norm_num))),
        if_neg (not_le.mpr (h1.trans_le (by norm_num))),
        if_neg (not_le.mpr h1)]
  · simp only [TokenTracker.getReport, TokenTracker.reset,
      TokenTracker.getCurrentCost, zero_div, zero_mul]
    norm_num

/-- C7 witness: at budget 1 and accumulated cost 2 the hypotheses hold,
the status after reset is `"正常"`, and the current status is the
over-budget label. -/
theorem claim7_witness :
    0 < (⟨1, ⟨0, 0, 0, 2⟩⟩ : TokenTracker).budget ∧
    (TokenTracker.getReport
        (TokenTracker.reset ⟨1, ⟨0, 0, 0, 2⟩⟩)).status = "正常" ∧
    (TokenTracker.getReport (⟨1, ⟨0, 0, 0, 2⟩⟩ : TokenTracker)).status =
      "超出预算" :=
  ⟨by norm_num,
   (claim7_amended_report_status ⟨1, ⟨0, 0, 0, 2⟩⟩ (by norm_num)).2,
   (claim7_amended_report_status ⟨1, ⟨0, 0, 0, 2⟩⟩ (by norm_num)).1.1
     (by norm_num)⟩

/-- C7 counterexample: at budget 1 and cost 2 the usage percentage is at
least 100, yet `getReport().status` is not the string `"exceeded"` the
claim prescribes — the source labels it `"超出预算"`. -/
theorem claim7_counterexample_status_label :
    100 ≤ (⟨1, ⟨0, 0, 0, 2⟩⟩ : TokenTracker).usage.cost /
        (⟨1, ⟨0, 0, 0, 2⟩⟩ : TokenTracker).budget * 100 ∧
    (TokenTracker.getReport (⟨1, ⟨0, 0, 0, 2⟩⟩ : TokenTracker)).status ≠
      "exceeded" ∧
    (TokenTracker.getReport (⟨1, ⟨0, 0, 0, 2⟩⟩ : TokenTracker)).status =
      "超出预算" := by
  have hs : (TokenTracker.getReport
      (⟨1, ⟨0, 0, 0, 2⟩⟩ : TokenTracker)).status = "超出预算" := by
    simp only [TokenTracker.getReport, TokenTracker.getCurrentCost]
    norm_num
  refine ⟨by norm_num, ?_, hs⟩
  rw [hs]
  decide

/-! ## Helper lemmas for the conversation history -/

theorem trimLoop_exists_drop (sp : String) (maxT : ℕ) :
    ∀ msgs : List Message,
      ∃ k, Conv.trimLoop sp maxT msgs = msgs.drop (2 * k)
  | [] => ⟨0, rfl⟩
  | [m] => ⟨0, rfl⟩
  | m1 :: m2 :: rest => by
    by_cases h : maxT < Conv.calcTotalTokens sp (m1 :: m2 :: rest)
    · obtain ⟨k, hk⟩ := trimLoop_exists_drop sp maxT rest
      refine ⟨k + 1, ?_⟩
      have harith : 2 * (k + 1) = 2 * k + 1 + 1 := by ring
      rw [harith, List.drop_succ_cons, List.drop_succ_cons]
      simpa [Conv.trimLoop, h] using hk
    · exact ⟨0, by simp [Conv.trimLoop, h]⟩

theorem trimLoop_post (sp : String) (maxT : ℕ) :
    ∀ msgs : List Message,
      Conv.calcTotalTokens sp (Conv.trimLoop sp maxT msgs) ≤ maxT ∨
        (Conv.trimLoop sp maxT msgs).length < 2
  | [] => .inr (by simp [Conv.trimLoop])
  | [m] => .inr (by simp [Conv.trimLoop])
  | m1 :: m2 :: rest => by
    by_cases h : maxT < Conv.calcTotalTokens sp (m1 :: m2 :: rest)
    · simpa [Conv.trimLoop, h] using trimLoop_post sp maxT rest
    · exact .inl (by simpa [Conv.trimLoop, h] using not_lt.mp h)

theorem trimLoop_length_parity (sp : String) (maxT : ℕ) :
    ∀ msgs : List Message,
      (Conv.trimLoop sp maxT msgs).length % 2 = msgs.length % 2
  | [] => rfl
  | [m] => rfl
  | m1 :: m2 :: rest => by
    by_cases h : maxT < Conv.calcTotalTokens sp (m1 :: m2 :: rest)
    · have := trimLoop_length_parity sp maxT rest
      simp only [Conv.trimLoop, h, if_true, List.length_cons]
      omega
    · simp [Conv.trimLoop, h]

theorem trimLoop_length_le (sp : String) (maxT : ℕ) (msgs : List Message) :
    (Conv.trimLoop sp maxT msgs).length ≤ msgs.length := by
  obtain ⟨k, hk⟩ := trimLoop_exists_drop sp maxT msgs
  rw [hk, List.length_drop]
  omega

theorem trimLoop_step (sp : String) (maxT : ℕ) (m1 m2 : Message)
    (rest : List Message)
    (h : maxT < Conv.calcTotalTokens sp (m1 :: m2 :: rest)) :
    Conv.trimLoop sp maxT (m1 :: m2 :: rest) =
      Conv.trimLoop sp maxT rest := by
  simp [Conv.trimLoop, h]

theorem trimLoop_getLast? (sp : String) (maxT : ℕ) (msgs : List Message)
    (h : Conv.trimLoop sp maxT msgs ≠ []) :
    (Conv.trimLoop sp maxT msgs).getLast? = msgs.getLast? := by
  obtain ⟨k, hk⟩ := trimLoop_exists_drop sp maxT msgs
  rw [hk] at h ⊢
  obtain ⟨l, hl⟩ := List.exists_cons_of_ne_nil h
  conv_rhs => rw [← List.take_append_drop (2 * k) msgs]
  rw [List.getLast?_append_of_ne_nil]
  exact h

theorem trimLoop_subset (sp : String) (maxT : ℕ) (msgs : List Message) :
    ∀ m ∈ Conv.trimLoop sp maxT msgs, m ∈ msgs := by
  obtain ⟨k, hk⟩ := trimLoop_exists_drop sp maxT msgs
  rw [hk]
  exact fun m hm => List.drop_subset _ _ hm

/-! ## Claim theorems: conversation history -/

/-- C1: after every `addUserMessage` or `addAssistantMessage` the trimming
step runs on the appended list; each loop iteration removes exactly the
two oldest messages and nothing else (so the result is the appended
sequence with some number of front pairs dropped — a contiguous suffix);
the loop stops exactly when the estimate is within the bound or fewer
than two messages remain (so it terminates, as the total trimming
function witnesses); and the system prompt is never touched. -/
theorem claim1_trimming_pairs_from_front :
    (∀ (sp : String) (maxT : ℕ) (msgs : List Message),
      ∃ k, Conv.trimLoop sp maxT msgs = msgs.drop (2 * k)) ∧
    (∀ (sp : String) (maxT : ℕ) (msgs : List Message),
      Conv.calcTotalTokens sp (Conv.trimLoop sp maxT msgs) ≤ maxT ∨
        (Conv.trimLoop sp maxT msgs).length < 2) ∧
    (∀ (sp : String) (maxT : ℕ) (m1 m2 : Message) (rest : List Message),
      Conv.trimLoop sp maxT (m1 :: m2 :: rest) =
        if maxT < Conv.calcTotalTokens sp (m1 :: m2 :: rest) then
          Conv.trimLoop sp maxT rest
        else m1 :: m2 :: rest) ∧
    (∀ (sp : String) (maxT : ℕ),
      Conv.trimLoop sp maxT [] = [] ∧
      ∀ m : Message, Conv.trimLoop sp maxT [m] = [m]) ∧
    (∀ (st : Conv) (c : String) (ts : ℕ),
      (Conv.addUserMessage st c ts).messages =
        Conv.trimLoop st.systemPrompt st.maxHistoryTokens
          (st.messages ++ [⟨"user", c, ts⟩]) ∧
      (Conv.addUserMessage st c ts).systemPrompt = st.systemPrompt ∧
      (Conv.addAssistantMessage st c ts).messages =
        Conv.trimLoop st.systemPrompt st.maxHistoryTokens
          (st.messages ++ [⟨"assistant", c, ts⟩]) ∧
      (Conv.addAssistantMessage st c ts).systemPrompt = st.systemPrompt) :=
  ⟨fun sp maxT => trimLoop_exists_drop sp maxT,
   fun sp maxT => trimLoop_post sp maxT,
   fun sp maxT m1 m2 rest => by
     by_cases h : maxT < Conv.calcTotalTokens sp (m1 :: m2 :: rest) <;>
       simp [Conv.trimLoop, h],
   fun sp maxT => ⟨rfl, fun m => rfl⟩,
   fun st c ts => ⟨rfl, rfl, rfl, rfl⟩⟩

theorem runPairs_fields (pairs : List (String × String)) :
    ∀ st : Conv,
      (Conv.runPairs st pairs).systemPrompt = st.systemPrompt ∧
      (Conv.runPairs st pairs).maxHistoryTokens = st.maxHistoryTokens := by
  induction pairs with
  | nil => intro st; exact ⟨rfl, rfl⟩
  | cons p rest ih =>
    intro st
    obtain ⟨u, a⟩ := p
    exact ih (Conv.addAssistantMessage (Conv.addUserMessage st u 0) a 0)

theorem addUserMessage_length_parity (st : Conv) (c : String) (ts : ℕ) :
    (Conv.addUserMessage st c ts).messages.length % 2 =
      (st.messages.length + 1) % 2 := by
  simp only [Conv.addUserMessage]
  rw [trimLoop_length_parity]
  simp

theorem addAssistantMessage_length_parity (st : Conv) (c : String) (ts : ℕ) :
    (Conv.addAssistantMessage st c ts).messages.length % 2 =
      (st.messages.length + 1) % 2 := by
  simp only [Conv.addAssistantMessage]
  rw [trimLoop_length_parity]
  simp

theorem addUserMessage_length_le (st : Conv) (c : String) (ts : ℕ) :
    (Conv.addUserMessage st c ts).messages.length ≤
      st.messages.length + 1 := by
  simp only [Conv.addUserMessage]
  have := trimLoop_length_le st.systemPrompt st.maxHistoryTokens
    (st.messages ++ [⟨"user", c, ts⟩])
  simpa using this

theorem addAssistantMessage_length_le (st : Conv) (c : String) (ts : ℕ) :
    (Conv.addAssistantMessage st c ts).messages.length ≤
      st.messages.length + 1 := by
  simp only [Conv.addAssistantMessage]
  have := trimLoop_length_le st.systemPrompt st.maxHistoryTokens
    (st.messages ++ [⟨"assistant", c, ts⟩])
  simpa using this

theorem runPairs_length_even (pairs : List (String × String)) :
    ∀ st : Conv, st.messages.length % 2 = 0 →
      (Conv.runPairs st pairs).messages.length % 2 = 0 := by
  induction pairs with
  | nil => intro st h; exact h
  | cons p rest ih =>
    intro st h
    obtain ⟨u, a⟩ := p
    refine ih _ ?_
    have h1 := addUserMessage_length_parity st u 0
    have h2 := addAssistantMessage_length_parity (Conv.addUserMessage st u 0) a 0
    omega

theorem runPairs_length_le (pairs : List (String × String)) :
    ∀ st : Conv,
      (Conv.runPairs st pairs).messages.length ≤
        st.messages.length + 2 * pairs.length := by
  induction pairs with
  | nil => intro st; simp [Conv.runPairs]
  | cons p rest ih =>
    intro st
    obtain ⟨u, a⟩ := p
    have h1 := addUserMessage_length_le st u 0
    have h2 := addAssistantMessage_length_le (Conv.addUserMessage st u 0) a 0
    have h3 := ih (Conv.addAssistantMessage (Conv.addUserMessage st u 0) a 0)
    simp only [Conv.runPairs, List.length_cons]
    omega

/-- C6 amended: starting from a fresh history, run complete alternating
user/assistant turns (`pairs`, then one final turn with contents `u`, `a`);
if the token estimate after the final append exceeds `maxHistoryTokens`,
then after trimming the message count is even and strictly less than the
number of calls, and the most recently added message is still present
unless trimming removed every message — which happens exactly when the
final user+assistant pair alone still exceeds the bound. -/
theorem claim6_amended_trim_after_alternating (sp : String) (maxT : ℕ)
    (pairs : List (String × String)) (u a : String)
    (hex : maxT < Conv.calcTotalTokens sp
      ((Conv.addUserMessage (Conv.runPairs ⟨[], sp, maxT⟩ pairs) u 0).messages
        ++ [⟨"assistant", a, 0⟩])) :
    (Conv.addAssistantMessage
        (Conv.addUserMessage (Conv.runPairs ⟨[], sp, maxT⟩ pairs) u 0)
        a 0).messages.length % 2 = 0 ∧
    (Conv.addAssistantMessage
        (Conv.addUserMessage (Conv.runPairs ⟨[], sp, maxT⟩ pairs) u 0)
        a 0).messages.length < 2 * (pairs.length + 1) ∧
    ((Conv.addAssistantMessage
        (Conv.addUserMessage (Conv.runPairs ⟨[], sp, maxT⟩ pairs) u 0)
        a 0).messages = [] ∨
      (Conv.addAssistantMessage
        (Conv.addUserMessage (Conv.runPairs ⟨[], sp, maxT⟩ pairs) u 0)
        a 0).messages.getLast? = some ⟨"assistant", a, 0⟩) := by
  obtain ⟨hsp, hmx⟩ := runPairs_fields pairs ⟨[], sp, maxT⟩
  have hst1even : (Conv.runPairs ⟨[], sp, maxT⟩ pairs).messages.length % 2 = 0 :=
    runPairs_length_even pairs ⟨[], sp, maxT⟩ (by simp)
  have hst1le : (Conv.runPairs ⟨[], sp, maxT⟩ pairs).messages.length ≤
      2 * pairs.length := by
    have := runPairs_length_le pairs ⟨[], sp, maxT⟩
    simpa using this
  have hmidp := addUserMessage_length_parity (Conv.runPairs ⟨[], sp, maxT⟩ pairs) u 0
  have hmidle := addUserMessage_length_le (Conv.runPairs ⟨[], sp, maxT⟩ pairs) u 0
  have hone : ((Conv.runPairs ⟨[], sp, maxT⟩ pairs).messages.length + 1) % 2
      = 1 := by omega
  rw [hone] at hmidp
  have hmid1 : 1 ≤ (Conv.addUserMessage
      (Conv.runPairs ⟨[], sp, maxT⟩ pairs) u 0).messages.length := by omega
  -- the final state's message list is the trim of the appended list
  have hfin : (Conv.addAssistantMessage
      (Conv.addUserMessage (Conv.runPairs ⟨[], sp, maxT⟩ pairs) u 0)
      a 0).messages =
      Conv.trimLoop sp maxT
        ((Conv.addUserMessage (Conv.runPairs ⟨[], sp, maxT⟩ pairs) u 0).messages
          ++ [⟨"assistant", a, 0⟩]) := by
    simp only [Conv.addAssistantMessage, Conv.addUserMessage, hsp, hmx]
  -- the appended list has at least two entries, so the loop runs once
  obtain ⟨p1, t1, hp1⟩ := List.exists_cons_of_ne_nil (l :=
      (Conv.addUserMessage (Conv.runPairs ⟨[], sp, maxT⟩ pairs) u 0).messages
        ++ [⟨"assistant", a, 0⟩])
    (by simp)
  have ht1ne : t1 ≠ [] := by
    intro h
    have hlen := congrArg List.length hp1
    simp only [h, List.length_append, List.length_cons, List.length_nil]
      at hlen
    omega
  obtain ⟨p2, t2, hp2⟩ := List.exists_cons_of_ne_nil ht1ne
  have hpre : (Conv.addUserMessage (Conv.runPairs ⟨[], sp, maxT⟩ pairs) u 0).messages
      ++ [⟨"assistant", a, 0⟩] = p1 :: p2 :: t2 := by rw [hp1, hp2]
  have hstep : Conv.trimLoop sp maxT (p1 :: p2 :: t2) =
      Conv.trimLoop sp maxT t2 :=
    trimLoop_step sp maxT p1 p2 t2 (hpre ▸ hex)
  have hparity : (Conv.addAssistantMessage
      (Conv.addUserMessage (Conv.runPairs ⟨[], sp, maxT⟩ pairs) u 0)
      a 0).messages.length % 2 = 0 := by
    rw [hfin, trimLoop_length_parity]
    simp only [List.length_append, List.length_cons, List.length_nil]
    omega
  refine ⟨hparity, ?_, ?_⟩
  · -- strict bound: at least one pair was removed
    have hlen2 : t2.length =
        (Conv.addUserMessage (Conv.runPairs ⟨[], sp, maxT⟩ pairs) u 0).messages.length
          + 1 - 2 := by
      have := congrArg List.length hpre
      simp only [List.length_append, List.length_cons, List.length_nil] at this
      omega
    rw [hfin, hpre, hstep]
    have := trimLoop_length_le sp maxT t2
    omega
  · by_cases hnil : (Conv.addAssistantMessage
        (Conv.addUserMessage (Conv.runPairs ⟨[], sp, maxT⟩ pairs) u 0)
        a 0).messages = []
    · exact .inl hnil
    · refine .inr ?_
      rw [hfin] at hnil ⊢
      rw [trimLoop_getLast? sp maxT _ hnil]
      exact List.getLast?_concat _

/-- C6 witness: one complete turn of `"aaaa"` messages followed by a final
`"abcdef"` turn under a bound of 3 estimated tokens drives the estimate
over the bound, and the amended conclusions hold there. -/
theorem claim6_witness :
    (3 : ℕ) < Conv.calcTotalTokens ""
      ((Conv.addUserMessage
          (Conv.runPairs ⟨[], "", 3⟩ [("aaaa", "aaaa")]) "abcdef" 0).messages
        ++ [⟨"assistant", "abcdef", 0⟩]) ∧
    ((Conv.addAssistantMessage
        (Conv.addUserMessage
          (Conv.runPairs ⟨[], "", 3⟩ [("aaaa", "aaaa")]) "abcdef" 0)
        "abcdef" 0).messages.length % 2 = 0 ∧
     (Conv.addAssistantMessage
        (Conv.addUserMessage
          (Conv.runPairs ⟨[], "", 3⟩ [("aaaa", "aaaa")]) "abcdef" 0)
        "abcdef" 0).messages.length < 2 * ([("aaaa", "aaaa")].length + 1) ∧
     ((Conv.addAssistantMessage
        (Conv.addUserMessage
          (Conv.runPairs ⟨[], "", 3⟩ [("aaaa", "aaaa")]) "abcdef" 0)
        "abcdef" 0).messages = [] ∨
      (Conv.addAssistantMessage
        (Conv.addUserMessage
          (Conv.runPairs ⟨[], "", 3⟩ [("aaaa", "aaaa")]) "abcdef" 0)
        "abcdef" 0).messages.getLast? =
        some ⟨"assistant", "abcdef", 0⟩)) :=
  ⟨by decide,
   claim6_amended_trim_after_alternating "" 3 [("aaaa", "aaaa")]
     "abcdef" "abcdef" (by decide)⟩

/-- C6 counterexample: with a bound of 1 estimated token, a single
user+assistant turn of `"abcdef"` contents drives the estimate above the
bound, and trimming then removes both messages — the most recently added
message is no longer present (the stored sequence is empty), contrary to
the claim. -/
theorem claim6_counterexample_last_message_evicted :
    1 < Conv.calcTotalTokens ""
      ((Conv.addUserMessage (⟨[], "", 1⟩ : Conv) "abcdef" 0).messages
        ++ [⟨"assistant", "abcdef", 0⟩]) ∧
    (Conv.addAssistantMessage
      (Conv.addUserMessage (⟨[], "", 1⟩ : Conv) "abcdef" 0)
      "abcdef" 0).messages = [] :=
  ⟨by decide, by decide⟩

/-- C10: the empty string is "no system prompt" across the interface — a
history constructed without a system prompt holds the empty string;
`setSystemPrompt("")` leaves it empty; with an empty system prompt
`getMessages` is exactly the stored messages stripped of timestamps (no
system-role entry is prepended, and none can appear since the mutators
only ever append user/assistant roles); and `exportToText` on a history
with no messages and an empty system prompt returns the empty-state
sentinel `"(空对话)"`. -/
theorem claim10_empty_prompt_is_no_prompt :
    (∀ mt : Option ℕ, (Conv.mkConv none mt).systemPrompt = "") ∧
    (∀ st : Conv, (Conv.setSystemPrompt st "").systemPrompt = "") ∧
    (∀ st : Conv, st.systemPrompt = "" →
      Conv.getMessages st =
        st.messages.map (fun m => ⟨m.role, m.content⟩)) ∧
    (∀ st : Conv, st.systemPrompt = "" →
      (∀ m ∈ st.messages, m.role ≠ "system") →
      ∀ e ∈ Conv.getMessages st, e.role ≠ "system") ∧
    (∀ (st : Conv) (c : String) (ts : ℕ) (m : Message),
      m ∈ (Conv.addUserMessage st c ts).messages →
        m ∈ st.messages ∨ m = ⟨"user", c, ts⟩) ∧
    (∀ (st : Conv) (c : String) (ts : ℕ) (m : Message),
      m ∈ (Conv.addAssistantMessage st c ts).messages →
        m ∈ st.messages ∨ m = ⟨"assistant", c, ts⟩) ∧
    (∀ (fmtTime : ℕ → String) (st : Conv),
      st.messages = [] → st.systemPrompt = "" →
      Conv.exportToText fmtTime st = "(空对话)") := by
  refine ⟨?_, ?_, ?_, ?_, ?_, ?_, ?_⟩
  · intro mt; rfl
  · intro st; rfl
  · intro st h
    simp [Conv.getMessages, h]
  · intro st h hroles e he
    have h3 : Conv.getMessages st =
        st.messages.map (fun m => (⟨m.role, m.content⟩ : ApiMessage)) := by
      simp [Conv.getMessages, h]
    rw [h3] at he
    obtain ⟨m, hm, hme⟩ := List.mem_map.mp he
    intro hsys
    rw [← hme] at hsys
    exact hroles m hm hsys
  · intro st c ts m hm
    simp only [Conv.addUserMessage] at hm
    have := trimLoop_subset st.systemPrompt st.maxHistoryTokens
      (st.messages ++ [⟨"user", c, ts⟩]) m hm
    rcases List.mem_append.mp this with h | h
    · exact .inl h
    · exact .inr (by simpa using h)
  · intro st c ts m hm
    simp only [Conv.addAssistantMessage] at hm
    have := trimLoop_subset st.systemPrompt st.maxHistoryTokens
      (st.messages ++ [⟨"assistant", c, ts⟩]) m hm
    rcases List.mem_append.mp this with h | h
    · exact .inl h
    · exact .inr (by simpa using h)
  · intro fmtTime st h1 h2
    rw [Conv.exportToText, if_pos ⟨h1, h2⟩]

/-! ## Helper lemmas for the dynamically-typed history model -/

theorem estimateTokensJs_error {v : JsVal} {e : JsError}
    (h : JsConv.estimateTokensJs v = .error e) : e = .typeError := by
  cases v with
  | str s => exact absurd h (by simp [JsConv.estimateTokensJs])
  | num q => exact absurd h (by simp [JsConv.estimateTokensJs])
  | nul =>
    simp only [JsConv.estimateTokensJs, Except.error.injEq] at h
    exact h.symm

theorem calcTotalAux_error_typeError :
    ∀ (msgs : List JsMessage) (acc : JsTok) (e : JsError),
      JsConv.calcTotalAux acc msgs = .error e → e = .typeError
  | [], acc, e => fun h => absurd h (by simp [JsConv.calcTotalAux])
  | m :: rest, acc, e => fun h => by
    simp only [JsConv.calcTotalAux] at h
    split at h
    · rename_i e' hm
      cases h
      exact estimateTokensJs_error hm
    · rename_i t hm
      exact calcTotalAux_error_typeError rest (acc.add t) e h

theorem calcTotalAux_ok_of_noNull :
    ∀ (msgs : List JsMessage) (acc : JsTok),
      (∀ m ∈ msgs, m.content ≠ .nul) →
      ∃ t, JsConv.calcTotalAux acc msgs = .ok t
  | [], acc => fun _ => ⟨acc, rfl⟩
  | m :: rest, acc => fun h => by
    have hrest : ∀ x ∈ rest, x.content ≠ JsVal.nul :=
      fun x hx => h x (List.mem_cons_of_mem m hx)
    cases hc : m.content with
    | str s =>
      obtain ⟨t, ht⟩ := calcTotalAux_ok_of_noNull rest
        (acc.add (.val ((s.length + 2) / 3))) hrest
      exact ⟨t, by
        simp [JsConv.calcTotalAux, JsConv.estimateTokensJs, hc, ht]⟩
    | num q =>
      obtain ⟨t, ht⟩ := calcTotalAux_ok_of_noNull rest (acc.add .nan) hrest
      exact ⟨t, by
        simp [JsConv.calcTotalAux, JsConv.estimateTokensJs, hc, ht]⟩
    | nul => exact absurd hc (h m (List.mem_cons_self m rest))

theorem calcTotalTokensJs_error_typeError {sp : String}
    {msgs : List JsMessage} {e : JsError}
    (h : JsConv.calcTotalTokensJs sp msgs = .error e) : e = .typeError :=
  calcTotalAux_error_typeError msgs _ e h

theorem trimLoopJs_error_typeError :
    ∀ (msgs : List JsMessage) (sp : String) (maxT : ℕ) (e : JsError),
      JsConv.trimLoopJs sp maxT msgs = .error e → e = .typeError
  | [], sp, maxT, e => fun h => by
    simp only [JsConv.trimLoopJs] at h
    cases hc : JsConv.calcTotalTokensJs sp [] with
    | error e' =>
      rw [hc] at h
      simp only [Except.map] at h
      exact (Except.error.inj h) ▸ calcTotalTokensJs_error_typeError hc
    | ok t => rw [hc] at h; simp only [Except.map] at h; exact absurd h (by simp)
  | [m], sp, maxT, e => fun h => by
    simp only [JsConv.trimLoopJs] at h
    cases hc : JsConv.calcTotalTokensJs sp [m] with
    | error e' =>
      rw [hc] at h
      simp only [Except.map] at h
      exact (Except.error.inj h) ▸ calcTotalTokensJs_error_typeError hc
    | ok t => rw [hc] at h; simp only [Except.map] at h; exact absurd h (by simp)
  | m1 :: m2 :: rest, sp, maxT, e => fun h => by
    simp only [JsConv.trimLoopJs] at h
    cases hc : JsConv.calcTotalTokensJs sp (m1 :: m2 :: rest) with
    | error e' =>
      rw [hc] at h
      simp only [bind, Except.bind] at h
      exact (Except.error.inj h) ▸ calcTotalTokensJs_error_typeError hc
    | ok t =>
      rw [hc] at h
      simp only [bind, Except.bind] at h
      by_cases hg : t.gtNat maxT
      · rw [if_pos hg] at h
        exact trimLoopJs_error_typeError rest sp maxT e h
      · rw [if_neg hg] at h
        exact absurd h (by simp [pure, Except.pure])

theorem trimLoopJs_ok_of_noNull :
    ∀ (msgs : List JsMessage) (sp : String) (maxT : ℕ),
      (∀ m ∈ msgs, m.content ≠ .nul) →
      ∃ ms, JsConv.trimLoopJs sp maxT msgs = .ok ms ∧
        ∃ k, ms = msgs.drop (2 * k)
  | [], sp, maxT => fun _ =>
    ⟨[], by
      simp only [JsConv.trimLoopJs, JsConv.calcTotalTokensJs,
        JsConv.calcTotalAux, Except.map], 0, rfl⟩
  | [m], sp, maxT => fun h => by
    obtain ⟨t, ht⟩ := calcTotalAux_ok_of_noNull [m]
      (.val (if sp = "" then 0 else (sp.length + 2) / 3)) h
    refine ⟨[m], ?_, 0, rfl⟩
    simp only [JsConv.trimLoopJs, JsConv.calcTotalTokensJs, ht, Except.map]
  | m1 :: m2 :: rest, sp, maxT => fun h => by
    have hrest : ∀ x ∈ rest, x.content ≠ JsVal.nul := fun x hx =>
      h x (List.mem_cons_of_mem m1 (List.mem_cons_of_mem m2 hx))
    obtain ⟨t, ht⟩ := calcTotalAux_ok_of_noNull (m1 :: m2 :: rest)
      (.val (if sp = "" then 0 else (sp.length + 2) / 3)) h
    by_cases hg : t.gtNat maxT
    · obtain ⟨ms, hms, k, hk⟩ := trimLoopJs_ok_of_noNull rest sp maxT hrest
      refine ⟨ms, ?_, k + 1, ?_⟩
      · simp only [JsConv.trimLoopJs, JsConv.calcTotalTokensJs, ht, bind,
          Except.bind, if_pos hg]
        exact hms
      · have harith : 2 * (k + 1) = 2 * k + 1 + 1 := by ring
        rw [hk, harith, List.drop_succ_cons, List.drop_succ_cons]
    · refine ⟨m1 :: m2 :: rest, ?_, 0, rfl⟩
      simp only [JsConv.trimLoopJs, JsConv.calcTotalTokensJs, ht, bind,
        Except.bind, if_neg hg]
      rfl

/-! ## Claim theorems: dynamically-typed history mutators -/

/-- C8 amended: the history mutators perform no type validation on their
content argument — no `InvalidArgument` error is ever raised; for any
value whose token estimation does not itself throw (anything but `null`,
given a `null`-free history) the call succeeds, with the value of any
type appended as the message content before trimming. -/
theorem claim8_amended_no_content_validation :
    ∀ (st : JsConv) (v : JsVal) (ts : ℕ),
      (JsConv.addUserMessageJs st v ts ≠ .error .invalidArgument ∧
       JsConv.addAssistantMessageJs st v ts ≠ .error .invalidArgument) ∧
      ((∀ m ∈ st.messages, m.content ≠ .nul) → v ≠ .nul →
        (∃ st', JsConv.addUserMessageJs st v ts = .ok st' ∧
          st'.systemPrompt = st.systemPrompt ∧
          ∃ k, st'.messages =
            (st.messages ++ [(⟨"user", v, ts⟩ : JsMessage)]).drop (2 * k)) ∧
        (∃ st', JsConv.addAssistantMessageJs st v ts = .ok st' ∧
          st'.systemPrompt = st.systemPrompt ∧
          ∃ k, st'.messages =
            (st.messages ++ [(⟨"assistant", v, ts⟩ : JsMessage)]).drop
              (2 * k))) := by
  intro st v ts
  constructor
  · constructor
    · intro h
      simp only [JsConv.addUserMessageJs] at h
      cases hc : JsConv.trimLoopJs st.systemPrompt st.maxHistoryTokens
          (st.messages ++ [⟨"user", v, ts⟩]) with
      | error e =>
        rw [hc] at h
        simp only [Except.map] at h
        have := trimLoopJs_error_typeError _ _ _ _ hc
        rw [this] at h
        exact absurd (Except.error.inj h) (by simp)
      | ok ms => rw [hc] at h; simp only [Except.map] at h; exact absurd h (by simp)
    · intro h
      simp only [JsConv.addAssistantMessageJs] at h
      cases hc : JsConv.trimLoopJs st.systemPrompt st.maxHistoryTokens
          (st.messages ++ [⟨"assistant", v, ts⟩]) with
      | error e =>
        rw [hc] at h
        simp only [Except.map] at h
        have := trimLoopJs_error_typeError _ _ _ _ hc
        rw [this] at h
        exact absurd (Except.error.inj h) (by simp)
      | ok ms => rw [hc] at h; simp only [Except.map] at h; exact absurd h (by simp)
  · intro hnull hv
    constructor
    · have hall : ∀ m ∈ st.messages ++ [(⟨"user", v, ts⟩ : JsMessage)],
          m.content ≠ JsVal.nul := by
        intro m hm
        rcases List.mem_append.mp hm with h | h
        · exact hnull m h
        · simp only [List.mem_singleton] at h
          rw [h]
          exact hv
      obtain ⟨ms, hms, k, hk⟩ := trimLoopJs_ok_of_noNull
        (st.messages ++ [⟨"user", v, ts⟩]) st.systemPrompt
        st.maxHistoryTokens hall
      refine ⟨⟨ms, st.systemPrompt, st.maxHistoryTokens⟩, ?_, rfl, k, hk⟩
      simp only [JsConv.addUserMessageJs, hms, Except.map]
    · have hall : ∀ m ∈ st.messages ++ [(⟨"assistant", v, ts⟩ : JsMessage)],
          m.content ≠ JsVal.nul := by
        intro m hm
        rcases List.mem_append.mp hm with h | h
        · exact hnull m h
        · simp only [List.mem_singleton] at h
          rw [h]
          exact hv
      obtain ⟨ms, hms, k, hk⟩ := trimLoopJs_ok_of_noNull
        (st.messages ++ [⟨"assistant", v, ts⟩]) st.systemPrompt
        st.maxHistoryTokens hall
      refine ⟨⟨ms, st.systemPrompt, st.maxHistoryTokens⟩, ?_, rfl, k, hk⟩
      simp only [JsConv.addAssistantMessageJs, hms, Except.map]

/-- C8 counterexample: passing the number `42` (a non-string) to
`addUserMessage` does not fail at all — the call returns normally with
the number stored as the message content, so no `InvalidArgument` error
is surfaced. -/
theorem claim8_counterexample_number_accepted :
    JsConv.addUserMessageJs ⟨[], "", 100000⟩ (.num 42) 0 =
      .ok ⟨[⟨"user", .num 42, 0⟩], "", 100000⟩ ∧
    JsConv.addUserMessageJs ⟨[], "", 100000⟩ (.num 42) 0 ≠
      .error .invalidArgument :=
  ⟨rfl, fun h => nomatch h⟩
